import Mathlib

/-!
Verification of the RPostgres result/row decoding engine (`src/PqResult.cpp`,
`src/PqRow.cpp`) against its natural-language specification.

The C++ code drives libpq. We shallowly embed it as follows:

* A libpq `PGresult*` becomes the inductive `PGresult`: a command-complete unit
  (`PGRES_COMMAND_OK`), the end-of-rows unit of single-row mode
  (`PGRES_TUPLES_OK`), one streamed row (`PGRES_SINGLE_TUPLE`, carrying its
  cells), or a fatal server error.  A cell is `Option String`: `none` models a
  SQL NULL (`PQgetisnull` true; `PQgetvalue` then yields the empty string and
  `PQgetlength` yields 0, which is how the embedding of `PQgetvalue` below
  behaves).
* The pending response units of a connection (successive `PQgetResult` calls)
  become a `List PGresult`; `PQgetResult` pops the head and returns the
  end-of-responses sentinel NULL exactly when the list is empty.
* R's typed NA sentinels (`NA_INTEGER`, `NA_REAL`, `NA_STRING`, `NA_LOGICAL`)
  become dedicated constructors of `RValue`; doubles are modelled as `ℚ`
  (the claims under verification concern null handling, field selection and
  conversion-rule dispatch, not binary floating-point rounding).
* `Rcpp::stop(...)` becomes `Except.error` carrying an `RError` from the
  spec's error taxonomy together with the message string of the source.
* libc `timegm` is modelled by an explicit proleptic-Gregorian
  civil-to-epoch conversion; libc `mktime` (the process-local calendar rule,
  an ambient-environment dependency) is passed in as an arbitrary function
  `loc : Tm → Int`.
* `checkUserInterrupt()` (cooperative cancellation) is not modelled: it only
  aborts, it never changes a produced value.
-/

/-- Decoded-type taxonomy, the `PGTypes` enum of the source. -/
inductive PGTypes where
  | PGString
  | PGInt
  | PGReal
  | PGVector
  | PGLogical
  | PGDate
  | PGDatetime
  | PGDatetimeTZ
  | PGTime
deriving DecidableEq, Repr

/-- One result cell as delivered by libpq in text mode: `none` is SQL NULL. -/
abbrev Cell := Option String

/-- libpq `ExecStatusType`, restricted to the statuses the source inspects. -/
inductive ExecStatusType where
  | PGRES_COMMAND_OK
  | PGRES_TUPLES_OK
  | PGRES_SINGLE_TUPLE
  | PGRES_FATAL_ERROR
deriving DecidableEq, Repr

/-- One server response unit (`PGresult*`).  `commandOk`/`tuplesOk` carry the
affected-row count (`PQcmdTuples`), `singleTuple` carries the row's cells,
`fatalError` carries the connection error message (`PQerrorMessage`). -/
inductive PGresult where
  | commandOk (cmdTuples : Int)
  | tuplesOk (cmdTuples : Int)
  | singleTuple (row : List Cell)
  | fatalError (msg : String)
deriving DecidableEq, Repr

/-- `PQresultStatus`. -/
def PGresult.status : PGresult → ExecStatusType
  | .commandOk _ => .PGRES_COMMAND_OK
  | .tuplesOk _ => .PGRES_TUPLES_OK
  | .singleTuple _ => .PGRES_SINGLE_TUPLE
  | .fatalError _ => .PGRES_FATAL_ERROR

/-- `PqRow::has_data`: `status() == PGRES_SINGLE_TUPLE`. -/
def PGresult.hasData : PGresult → Bool
  | .singleTuple _ => true
  | _ => false

/-- The error taxonomy of the specification (§7); each constructor carries the
message text the corresponding `stop(...)` call of the source produces. -/
inductive RError where
  | connectionError (msg : String)
  | queryError (msg : String)
  | arityError (msg : String)
  | bindingError (msg : String)
  | staleResultError (msg : String)
  | protocolError (msg : String)
deriving DecidableEq, Repr

/-- Values written into output columns.  `naInt`, `naReal`, `naString` and
`naLogical` are the reserved R missing sentinels (`NA_INTEGER`, `NA_REAL`,
`NA_STRING`, `NA_LOGICAL`); `raw` is a byte vector (RAWSXP), whose bytes we
keep as the characters copied out of the libpq value buffer. -/
inductive RValue where
  | naInt
  | int (n : Int)
  | naReal
  | real (q : ℚ)
  | naString
  | string (s : String)
  | naLogical
  | logical (b : Bool)
  | raw (bytes : List Char)
deriving DecidableEq, Repr

/-- Spec-side notion used by claim C1: the reserved, type-distinct missing
sentinels ("integer/real use a reserved NA numeric, string uses an
absent-value marker, logical uses a reserved tri-state absent value").
A `raw` byte vector is never such a sentinel: every `raw` value is also a
possible decode of ordinary non-null data. -/
def isMissingSentinel : RValue → Bool
  | .naInt | .naReal | .naString | .naLogical => true
  | _ => false

/-! ## Text-to-number parsing primitives (libc models) -/

/-- One digit of the positional parsers: the C expression `*val - 0x30`. -/
def charDigit (c : Char) : Int := (c.toNat : Int) - 48

/-- Digit-accumulation loop shared by the `atoi` model: consumes leading
decimal digits, stops at the first non-digit. -/
def atoiDigits : List Char → Int → Int
  | [], acc => acc
  | c :: cs, acc => if c.isDigit then atoiDigits cs (acc * 10 + charDigit c) else acc

/-- libc `atoi`, as the source uses it on PostgreSQL integer text: an optional
sign followed by decimal digits (leading whitespace and int-overflow wrap are
outside the wire format and not modelled). -/
def atoi (s : String) : Int :=
  match s.toList with
  | '-' :: cs => -(atoiDigits cs 0)
  | '+' :: cs => atoiDigits cs 0
  | cs => atoiDigits cs 0

/-- Leading decimal digits of a character list: value and remainder. -/
def parseDigits : List Char → Nat → Nat × List Char
  | [], acc => (acc, [])
  | c :: cs, acc =>
    if c.isDigit then parseDigits cs (acc * 10 + (c.toNat - 48)) else (acc, c :: cs)

/-- Leading decimal digits with their count (for fractional scaling). -/
def parseDigitsCount : List Char → Nat → Nat → Nat × Nat
  | [], acc, k => (acc, k)
  | c :: cs, acc, k =>
    if c.isDigit then parseDigitsCount cs (acc * 10 + (c.toNat - 48)) (k + 1) else (acc, k)

/-- Magnitude part of the `strtod`/`atof` model: `digits[.digits]`, stopping at
the first character that fits neither (in particular at a trailing `+TZ`
timezone suffix). -/
def strtodMag (cs : List Char) : ℚ :=
  let ip := parseDigits cs 0
  match ip.2 with
  | '.' :: rest =>
    let fp := parseDigitsCount rest 0 0
    (ip.1 : ℚ) + (fp.1 : ℚ) / ((10 : ℚ) ^ fp.2)
  | _ => (ip.1 : ℚ)

/-- libc `strtod`/`atof` on the plain decimal notation PostgreSQL emits for
the values the source parses this way (exponent notation is outside the
fixed-width wire formats of §4.4). -/
def strtodQ (cs : List Char) : ℚ :=
  match cs with
  | '-' :: rest => -(strtodMag rest)
  | '+' :: rest => strtodMag rest
  | rest => strtodMag rest

/-- C truncation toward zero, `static_cast<int>` on a rational: truncating
division of the reduced numerator by the (positive) denominator. -/
def cTrunc (q : ℚ) : Int := q.num.tdiv (q.den : Int)

/-! ## Calendar conversion (libc `timegm` model) -/

/-- The fields of `struct tm` the source reads and writes. -/
structure Tm where
  tm_year : Int
  tm_mon : Int
  tm_mday : Int
  tm_hour : Int
  tm_min : Int
  tm_sec : Int
deriving DecidableEq, Repr

/-- Days from 1970-01-01 of the proleptic-Gregorian civil date y-m-d
(floor-division form of the standard days-from-civil algorithm). -/
def daysFromCivil (y m d : Int) : Int :=
  let ys := y - (if m ≤ 2 then 1 else 0)
  let era := ys.fdiv 400
  let yoe := ys - era * 400
  let mp := (m - 3).emod 12
  let doy := (153 * mp + 2).fdiv 5 + d - 1
  let doe := yoe * 365 + yoe.fdiv 4 - yoe.fdiv 100 + doy
  era * 146097 + doe - 719468

/-- libc `timegm`: seconds since the epoch of a `struct tm` interpreted as a
UTC calendar time, with libc's month-overflow normalization. -/
def timegm (t : Tm) : Int :=
  let y := t.tm_year + 1900 + t.tm_mon.fdiv 12
  let m := t.tm_mon.emod 12 + 1
  daysFromCivil y m t.tm_mday * 86400 + t.tm_hour * 3600 + t.tm_min * 60 + t.tm_sec

/-! ## PqRow: one streamed response unit (`src/PqRow.cpp`) -/

/-- The drain loop of the `PqRow` constructor: `PQgetResult` until it returns
NULL, `PQclear`-ing (discarding) every unit it hands back. -/
def drainResults : List PGresult → List PGresult
  | [] => []
  | _ :: rest => drainResults rest

theorem drainResults_eq_nil (l : List PGresult) : drainResults l = [] := by
  induction l with
  | nil => rfl
  | cons _ rest ih => simpa [drainResults] using ih

/-- `PQerrorMessage` at the moment a fatal result is pulled: the message the
fatal unit carries. -/
def fatalMessage : PGresult → String
  | .fatalError m => m
  | _ => ""

/-- The `PqRow` constructor `PqRow::PqRow(PGconn*)`: pull one response unit
(`PQgetResult`); if its status is `PGRES_TUPLES_OK` keep pulling and
discarding until NULL; error out on NULL ("No active query") and on
`PGRES_FATAL_ERROR` (server message).  Returns the row together with the
remaining pending units of the connection. -/
def pqRowCreate (queue : List PGresult) : Except RError (PGresult × List PGresult) :=
  match queue with
  | [] => .error (.protocolError "No active query")
  | r :: rest =>
    let rest2 := if r.status = .PGRES_TUPLES_OK then drainResults rest else rest
    if r.status = .PGRES_FATAL_ERROR then .error (.queryError (fatalMessage r))
    else .ok (r, rest2)

theorem pqRowCreate_ok_length {q : List PGresult} {p : PGresult × List PGresult}
    (h : pqRowCreate q = .ok p) : p.2.length < q.length := by
  match q with
  | [] => simp [pqRowCreate] at h
  | r :: rest =>
    simp only [pqRowCreate] at h
    split at h
    · exact absurd h (by simp)
    · cases h
      split
      · simp [drainResults_eq_nil]
      · simp

/-- `PqRow::get_exception_info` is diagnostic-only and not modelled.
`PQgetvalue(pRes_, 0, j)`: the cell text, or the empty string for NULL
(libpq never returns a null pointer here). -/
def PQgetvalue (r : PGresult) (j : Nat) : String :=
  match r with
  | .singleTuple row => (row.getD j none).getD ""
  | _ => ""

/-- `PQgetisnull(pRes_, 0, j)`. -/
def cellOf (r : PGresult) (j : Nat) : Option String :=
  match r with
  | .singleTuple row => row.getD j none
  | _ => none

/-- `PqRow::is_null`. -/
def is_null (r : PGresult) (j : Nat) : Bool := (cellOf r j).isNone

/-- `PqRow::get_int`: NULL gives `NA_INTEGER`, otherwise `atoi` of the text. -/
def get_int (r : PGresult) (j : Nat) : RValue :=
  if is_null r j then .naInt else .int (atoi (PQgetvalue r j))

/-- `PqRow::get_double`: NULL gives `NA_REAL`, otherwise `atof` of the text. -/
def get_double (r : PGresult) (j : Nat) : RValue :=
  if is_null r j then .naReal else .real (strtodQ (PQgetvalue r j).toList)

/-- `PqRow::get_string`: NULL gives `NA_STRING`, otherwise the UTF-8 text. -/
def get_string (r : PGresult) (j : Nat) : RValue :=
  if is_null r j then .naString else .string (PQgetvalue r j)

/-- `PqRow::get_raw`: copies `PQgetlength` bytes out of the value buffer with
no `is_null` check; for a NULL cell libpq reports length 0 and an empty
buffer, so the copy is the empty byte vector. -/
def get_raw (r : PGresult) (j : Nat) : RValue :=
  .raw (PQgetvalue r j).toList

/-- `PqRow::get_date`: NULL gives `NA_REAL`; otherwise positional digit
extraction of `YYYY-MM-DD` (offsets 0-3, 5-6, 8-9 along the pointer walk of
the source), `timegm` of the value-initialized `struct tm`, divided by
86400 to give fractional days since the epoch. -/
def get_date (r : PGresult) (j : Nat) : RValue :=
  if is_null r j then .naReal
  else
    let v := (PQgetvalue r j).toList
    let year := ((charDigit (v.getD 0 ' ') * 10 + charDigit (v.getD 1 ' ')) * 10
        + charDigit (v.getD 2 ' ')) * 10 + charDigit (v.getD 3 ' ') - 1900
    let mon := 10 * charDigit (v.getD 5 ' ') + charDigit (v.getD 6 ' ') - 1
    let mday := charDigit (v.getD 8 ' ') * 10 + charDigit (v.getD 9 ' ')
    let tmv : Tm :=
      { tm_year := year, tm_mon := mon, tm_mday := mday,
        tm_hour := 0, tm_min := 0, tm_sec := 0 }
    .real ((timegm tmv : ℚ) / (24 * 60 * 60))

/-- `PqRow::get_datetime`: NULL gives `NA_REAL`; otherwise positional digit
extraction of `YYYY-MM-DD HH:MM:` (offsets 0-3, 5-6, 8-9, 11-12, 14-15) and
`strtod` from offset 17 for the seconds including any fractional part
(stopping at a `+TZ` suffix).  The whole seconds go into `tm_sec`
(`static_cast<int>`); the epoch conversion is `mktime` (the process-local
rule `loc`) when `use_local`, `timegm` (UTC) otherwise, plus the fractional
remainder `sec - tm_sec`. -/
def get_datetime (loc : Tm → Int) (use_local : Bool) (r : PGresult) (j : Nat) : RValue :=
  if is_null r j then .naReal
  else
    let v := (PQgetvalue r j).toList
    let year := ((charDigit (v.getD 0 ' ') * 10 + charDigit (v.getD 1 ' ')) * 10
        + charDigit (v.getD 2 ' ')) * 10 + charDigit (v.getD 3 ' ') - 1900
    let mon := charDigit (v.getD 5 ' ') * 10 + charDigit (v.getD 6 ' ') - 1
    let mday := charDigit (v.getD 8 ' ') * 10 + charDigit (v.getD 9 ' ')
    let hour := charDigit (v.getD 11 ' ') * 10 + charDigit (v.getD 12 ' ')
    let minute := charDigit (v.getD 14 ' ') * 10 + charDigit (v.getD 15 ' ')
    let sec : ℚ := strtodQ (v.drop 17)
    let tmv : Tm :=
      { tm_year := year, tm_mon := mon, tm_mday := mday,
        tm_hour := hour, tm_min := minute, tm_sec := cTrunc sec }
    if use_local then .real ((loc tmv : ℚ) + (sec - (cTrunc sec : ℚ)))
    else .real ((timegm tmv : ℚ) + (sec - (cTrunc sec : ℚ)))

/-- `PqRow::get_time`: NULL gives `NA_REAL`; otherwise `HH:MM:` positional
digits (offsets 0-1, 3-4) and `strtod` from offset 6 for the seconds, summed
as seconds since midnight. -/
def get_time (r : PGresult) (j : Nat) : RValue :=
  if is_null r j then .naReal
  else
    let v := (PQgetvalue r j).toList
    let hour := charDigit (v.getD 0 ' ') * 10 + charDigit (v.getD 1 ' ')
    let minute := charDigit (v.getD 3 ' ') * 10 + charDigit (v.getD 4 ' ')
    let sec : ℚ := strtodQ (v.drop 6)
    .real (((hour * 3600 + minute * 60 : Int) : ℚ) + sec)

/-- `PqRow::get_logical`: NULL gives `NA_LOGICAL`; otherwise true exactly when
the text is `"t"` (`strcmp(..., "t") == 0`). -/
def get_logical (r : PGresult) (j : Nat) : RValue :=
  if is_null r j then .naLogical else .logical (decide (PQgetvalue r j = "t"))

/-- The `switch (types[j])` body of `PqRow::set_list_value`: the value written
for column `j` of the current row. -/
def decodeCell (types : List PGTypes) (loc : Tm → Int) (r : PGresult) (j : Nat) : RValue :=
  match types.getD j .PGString with
  | .PGLogical => get_logical r j
  | .PGInt => get_int r j
  | .PGReal => get_double r j
  | .PGVector => get_raw r j
  | .PGString => get_string r j
  | .PGDate => get_date r j
  | .PGDatetimeTZ => get_datetime loc false r j
  | .PGDatetime => get_datetime loc true r j
  | .PGTime => get_time r j

/-- `PqRow::set_list_value(x, i, j, types)`: store the decoded cell of column
`j` at row slot `i` of the output column `x`. -/
def set_list_value (r : PGresult) (x : List RValue) (i j : Nat)
    (types : List PGTypes) (loc : Tm → Int) : List RValue :=
  x.set i (decodeCell types loc r j)

/-! ## TypeMapper (`PqResult::get_column_types`) -/

/-- Warning text of the default branch: `warning("Unknown field type (%s) in
column %s", type, PQfname(pSpec_, i))`. -/
def unknownFieldMsg (oid : Nat) (name : String) : String :=
  "Unknown field type (" ++ toString oid ++ ") in column " ++ name

/-- The `switch (type)` of `PqResult::get_column_types` for one column: the
decoded type, and the warning message the default branch emits for a type
identifier outside the table. -/
def columnType (name : String) (oid : Nat) : PGTypes × Option String :=
  match oid with
  | 20 | 21 | 23 | 26 => (.PGInt, none)
  | 1700 | 701 | 700 | 790 => (.PGReal, none)
  | 18 | 19 | 25 | 114 | 1042 | 1043 => (.PGString, none)
  | 1082 => (.PGDate, none)
  | 1083 | 1266 => (.PGTime, none)
  | 1114 => (.PGDatetime, none)
  | 1184 => (.PGDatetimeTZ, none)
  | 1186 | 3802 | 2950 => (.PGString, none)
  | 16 => (.PGLogical, none)
  | 17 | 2278 => (.PGVector, none)
  | _ => (.PGString, some (unknownFieldMsg oid name))

/-- Spec-side list of the server type identifiers present in the mapping
table of §4.3 (the `case` labels of the switch). -/
def knownOids : List Nat :=
  [20, 21, 23, 26, 1700, 701, 700, 790, 18, 19, 25, 114, 1042, 1043,
   1082, 1083, 1266, 1114, 1184, 1186, 3802, 2950, 16, 17, 2278]

/-- `PqResult::get_column_types`: map every described column (name and server
type oid, from `PQfname`/`PQftype`) through the switch, collecting the types
in column order and the warnings the default branch emits. -/
def get_column_types (cols : List (String × Nat)) : List PGTypes × List String :=
  match cols with
  | [] => ([], [])
  | c :: rest =>
    let tw := columnType c.1 c.2
    let rec_ := get_column_types rest
    (tw.1 :: rec_.1, (match tw.2 with | some m => [m] | none => []) ++ rec_.2)

/-! ## Column buffers (`df_create` / `df_resize` collaborators) -/

/-- A tabular chunk: one growable buffer per column. -/
abbrev DF := List (List RValue)

/-- Freshly allocated slot contents of `df_create`/`df_resize` padding.  The
source leaves them to R's allocator; they are never observed through `fetch`
(the trim step cuts them off), so the model fills with the type's NA-like
value. -/
def defaultCell : PGTypes → RValue
  | .PGInt => .naInt
  | .PGReal | .PGDate | .PGDatetime | .PGDatetimeTZ | .PGTime => .naReal
  | .PGString => .naString
  | .PGLogical => .naLogical
  | .PGVector => .raw []

/-- `df_create(types_, names_, n)`: one buffer of capacity `n` per column
(column names are presentation data carried alongside and not modelled). -/
def dfCreate (types : List PGTypes) (n : Nat) : DF :=
  types.map (fun t => List.replicate n (defaultCell t))

/-- One column of `df_resize`: keep the first `n` slots, extend with fresh
slots if growing. -/
def resizeCol (t : PGTypes) (col : List RValue) (n : Nat) : List RValue :=
  col.take n ++ List.replicate (n - col.length) (defaultCell t)

/-- `df_resize(out, n)`: resize every column buffer to capacity `n`. -/
def dfResize (types : List PGTypes) (out : DF) (n : Nat) : DF :=
  match types, out with
  | t :: ts, col :: cols => resizeCol t col n :: dfResize ts cols n
  | _, _ => []

/-- The inner column loop of `fetch`: `for (j = 0; j < ncols_; ++j)
pNextRow_->set_list_value(out[j], i, j, types_)`, with `j` tracking the
column index. -/
def writeRowAux (types : List PGTypes) (loc : Tm → Int) (r : PGresult) (i : Nat) :
    Nat → DF → DF
  | _, [] => []
  | j, col :: cols => set_list_value r col i j types loc :: writeRowAux types loc r i (j + 1) cols

/-- Decode the current row into slot `i` of every column buffer. -/
def writeRow (types : List PGTypes) (loc : Tm → Int) (r : PGresult) (out : DF) (i : Nat) : DF :=
  writeRowAux types loc r i 0 out

/-! ## ResultSet state (`PqResult`) -/

/-- The fields of `PqResult` the verified operations read and write, together
with the stream state of its connection: `queue` is the list of response
units `PQgetResult` will deliver, `pNextRow` the one-row lookahead, `nrows`
the running `nrows_` counter.  `isActive` is the value of
`pConn_->is_current_result(this)`, i.e. whether this ResultSet is still the
connection's current result. -/
structure ResultSt where
  nparams : Nat
  types : List PGTypes
  bound : Bool
  isActive : Bool
  pNextRow : Option PGresult
  queue : List PGresult
  nrows : Nat
deriving DecidableEq, Repr

/-- `PqResult::fetch_row`: construct a fresh `PqRow` from the connection as
the new lookahead and count it in `nrows_`. -/
def fetch_row (st : ResultSt) : Except RError (PGresult × ResultSt) :=
  match pqRowCreate st.queue with
  | .error e => .error e
  | .ok rq =>
    .ok (rq.1, { st with pNextRow := some rq.1, queue := rq.2, nrows := st.nrows + 1 })

/-- `PqResult::fetch_row_if_needed`. -/
def fetch_row_if_needed (st : ResultSt) : Except RError (PGresult × ResultSt) :=
  match st.pNextRow with
  | some r => .ok (r, st)
  | none => fetch_row st

/-- `PqResult::is_complete`: the lookahead row reports no more data. -/
def is_complete (st : ResultSt) : Except RError (Bool × ResultSt) :=
  match fetch_row_if_needed st with
  | .error e => .error e
  | .ok rs => .ok (!rs.1.hasData, rs.2)

/-- Outcome of the fetch loop: the buffers, their capacity `n`, the rows
written `i`, the lookahead, the remaining connection queue and the row
counter at exit. -/
structure LoopOut where
  out : DF
  cap : Nat
  rows : Nat
  cur : PGresult
  queue : List PGresult
  nrows : Nat
deriving DecidableEq, Repr

/-- The `while (pNextRow_->has_data())` loop of `PqResult::fetch`: on each
iteration, if the write index has reached capacity either double the buffers
(`n_max < 0`) or break; then decode the current row into slot `i`, pull the
next lookahead row (`fetch_row`) and advance. -/
def fetchLoop (types : List PGTypes) (loc : Tm → Int) (nMax : Int)
    (cur : PGresult) (queue : List PGresult) (n i nr : Nat) (out : DF) :
    Except RError LoopOut :=
  if cur.hasData then
    if n ≤ i ∧ 0 ≤ nMax then .ok ⟨out, n, i, cur, queue, nr⟩
    else
      let n2 := if n ≤ i then n * 2 else n
      let out2 := if n ≤ i then dfResize types out n2 else out
      let out3 := writeRow types loc cur out2 i
      match h : pqRowCreate queue with
      | .error e => .error e
      | .ok rq => fetchLoop types loc nMax rq.1 rq.2 n2 (i + 1) (nr + 1) out3
  else .ok ⟨out, n, i, cur, queue, nr⟩
termination_by queue.length
decreasing_by exact pqRowCreate_ok_length h

/-- `PqResult::fetch(n_max)`: guards (`bound_`, `active()`), initial capacity
(100 for fetch-all, else `n_max`), buffer creation, lookahead priming, the
row loop, and the final trim `if (i < n) out = df_resize(out, i)`.  The
column presentation attributes (Date/POSIXct/hms class tags) attached at the
end are boundary data for the table-construction collaborator and are not
part of the buffer model. -/
def fetch (loc : Tm → Int) (st : ResultSt) (nMax : Int) :
    Except RError (DF × ResultSt) :=
  if st.bound = false then .error (.bindingError "Query needs to be bound before fetching")
  else if st.isActive = false then .error (.staleResultError "Inactive result set")
  else
    let n := if nMax < 0 then 100 else nMax.toNat
    let out := dfCreate st.types n
    match fetch_row_if_needed st with
    | .error e => .error e
    | .ok cs =>
      match fetchLoop st.types loc nMax cs.1 cs.2.queue n 0 cs.2.nrows out with
      | .error e => .error e
      | .ok lo =>
        let outF := if lo.rows < lo.cap then dfResize st.types lo.out lo.rows else lo.out
        .ok (outF, { cs.2 with pNextRow := some lo.cur, queue := lo.queue, nrows := lo.nrows })

/-! ## Parameter binding -/

/-- The row loop of `PqResult::bind_rows`: for each row index `i` (with `k`
rows remaining), build the text parameter vector `c_params` out of slot `i`
of every column (the indexing is unchecked in the source; the placeholder
`""` stands for the out-of-range case) and call `PQexecPrepared`.  The
server's verdict per row is the collaborator function `execResp` (`none` =
`PGRES_COMMAND_OK`); a failing row stops with the server message and the
1-based row index, as `stop("%s (row %i)", ..., i + 1)` does.  The rows
actually executed are returned as evidence of what was sent. -/
def bindRowsLoop (params : List (List String)) (execResp : List String → Option String) :
    Nat → Nat → List (List String) → Except RError (List (List String))
  | _, 0, sent => .ok sent
  | i, k + 1, sent =>
    let row := params.map (fun col => col.getD i "")
    match execResp row with
    | some msg => .error (.queryError (msg ++ " (row " ++ toString (i + 1) ++ ")"))
    | none => bindRowsLoop params execResp (i + 1) k (sent ++ [row])

/-- `PqResult::bind_rows(params)`: fail with the arity error when the number
of parameter columns differs from the prepared statement's parameter count;
otherwise execute the statement once per row, the row count being the length
of the FIRST column (`CharacterVector(params[0]).size()`).  The ResultSet
state is returned untouched: in particular `bound_` is not set. -/
def bind_rows (st : ResultSt) (params : List (List String))
    (execResp : List String → Option String) :
    Except RError (ResultSt × List (List String)) :=
  if params.length ≠ st.nparams then
    .error (.arityError ("Query requires " ++ toString st.nparams ++ " params; "
      ++ toString params.length ++ " supplied."))
  else
    let n := (params.headD []).length
    match bindRowsLoop params execResp 0 n [] with
    | .error e => .error e
    | .ok sent => .ok (st, sent)

/-! ## Construction (`PqResult::PqResult`) -/

/-- The connection collaborator as the constructor sees it: whether
`check_connection` passes, the current-result registration slot, the
server's responses to `PQprepare` and `PQdescribePrepared` (used once each
during construction), whether `PQsendQueryPrepared` / `PQsetSingleRowMode`
succeed, and the response units a successful send will stream. -/
structure PqConnection where
  connOk : Bool
  currentResult : Option Nat
  prepareResp : Except String Unit
  describeResp : Except String (Nat × List (String × Nat))
  sendOk : Bool
  singleRowOk : Bool
  resultStream : List PGresult
deriving Repr

/-- `PqResult::PqResult(pConn, sql)` for a ResultSet with identity `rid`:
check the connection, register as the connection's current result, then
inside the try block prepare, describe, and auto-bind when the statement has
no parameters; on any failure in the try block deregister (set the current
result to NULL) before propagating the error.  On success the column
metadata is cached through `get_column_types`, whose warnings are returned
alongside the state. -/
def pqResultNew (rid : Nat) (conn : PqConnection) (sql : String) :
    Except RError (ResultSt × List String) × PqConnection :=
  if conn.connOk = false then (.error (.connectionError "Lost connection to database"), conn)
  else
    let conn1 := { conn with currentResult := some rid }
    match conn.prepareResp with
    | .error msg => (.error (.queryError msg), { conn1 with currentResult := none })
    | .ok _ =>
      match conn.describeResp with
      | .error msg => (.error (.queryError msg), { conn1 with currentResult := none })
      | .ok spec =>
        if spec.1 = 0 then
          if conn.sendOk = false then
            (.error (.queryError "Failed to send query"), { conn1 with currentResult := none })
          else if conn.singleRowOk = false then
            (.error (.queryError "Failed to set single row mode"),
             { conn1 with currentResult := none })
          else
            let tw := get_column_types spec.2
            (.ok ({ nparams := 0, types := tw.1, bound := true, isActive := true,
                    pNextRow := none, queue := conn.resultStream, nrows := 0 }, tw.2), conn1)
        else
          let tw := get_column_types spec.2
          (.ok ({ nparams := spec.1, types := tw.1, bound := false, isActive := true,
                  pNextRow := none, queue := [], nrows := 0 }, tw.2), conn1)

/-! ## Stream shapes used in the statements -/

/-- A well-formed single-row-mode stream: the rows one per unit, then the
end-of-rows unit carrying the command tuple count. -/
def mkStream (rows : List (List Cell)) (c : Int) : List PGresult :=
  rows.map PGresult.singleTuple ++ [PGresult.tuplesOk c]

/-- The first unit `pqRowCreate` hands back from such a stream. -/
def headUnit (rows : List (List Cell)) (c : Int) : PGresult :=
  match rows with
  | [] => .tuplesOk c
  | r :: _ => .singleTuple r

/-- The queue remaining after `pqRowCreate` pulled `headUnit` (the drain on
the terminator leaves nothing). -/
def tailUnits (rows : List (List Cell)) (c : Int) : List PGresult :=
  match rows with
  | [] => []
  | _ :: rs => mkStream rs c

/-- Columns after `k` rows were decoded into buffers of capacity `n` (column
index counter `j`, one column per remaining type): the decoded head of each
buffer followed by the untouched slots. -/
def fillAux (types0 : List PGTypes) (loc : Tm → Int) (consumed : List PGresult) (n : Nat) :
    Nat → List PGTypes → DF
  | _, [] => []
  | j, t :: ts =>
    (consumed.map (fun r => decodeCell types0 loc r j)
      ++ List.replicate (n - consumed.length) (defaultCell t))
      :: fillAux types0 loc consumed n (j + 1) ts

/-- The buffer state mid-fetch: every column filled up to `consumed.length`
out of capacity `n`. -/
def fillDF (types : List PGTypes) (loc : Tm → Int) (consumed : List PGresult) (n : Nat) : DF :=
  fillAux types loc consumed n 0 types

/-- Fully decoded, exactly-trimmed output for a list of row units. -/
def decodedAux (types0 : List PGTypes) (loc : Tm → Int) (rows : List PGresult) :
    Nat → List PGTypes → DF
  | _, [] => []
  | j, _ :: ts => rows.map (fun r => decodeCell types0 loc r j) :: decodedAux types0 loc rows (j + 1) ts

/-- The exact decode of a row list, one trimmed column per declared type. -/
def decodedDF (types : List PGTypes) (loc : Tm → Int) (rows : List PGresult) : DF :=
  decodedAux types loc rows 0 types

/-- Capacity evolution of the fetch-all loop: starting from capacity `n` and
write index `i`, consume `k` more rows, doubling whenever the index has
reached the capacity. -/
def finalCapNeg (n i : Nat) : Nat → Nat
  | 0 => n
  | k + 1 => finalCapNeg (if n ≤ i then n * 2 else n) (i + 1) k

/-! ## Buffer-evolution lemmas -/

theorem listSetAppend {α : Type} (as bs : List α) (v : α) :
    (as ++ bs).set as.length v = as ++ bs.set 0 v := by
  induction as with
  | nil => simp
  | cons a as ih => simpa using ih

theorem dfCreate_eq_fill (types : List PGTypes) (loc : Tm → Int) (n : Nat) :
    dfCreate types n = fillDF types loc [] n := by
  show dfCreate types n = fillAux types loc [] n 0 types
  have aux : ∀ (ts : List PGTypes) (j : Nat),
      ts.map (fun t => List.replicate n (defaultCell t)) = fillAux types loc [] n j ts := by
    intro ts
    induction ts with
    | nil => intro j; rfl
    | cons t ts ih => intro j; simp [fillAux, ih (j + 1)]
  exact aux types 0

theorem writeRow_fill (types : List PGTypes) (loc : Tm → Int) (r : PGresult)
    (consumed : List PGresult) (n : Nat) (hlt : consumed.length < n) :
    writeRow types loc r (fillDF types loc consumed n) consumed.length
      = fillDF types loc (consumed ++ [r]) n := by
  show writeRowAux types loc r consumed.length 0 (fillAux types loc consumed n 0 types)
      = fillAux types loc (consumed ++ [r]) n 0 types
  have aux : ∀ (ts : List PGTypes) (j : Nat),
      writeRowAux types loc r consumed.length j (fillAux types loc consumed n j ts)
        = fillAux types loc (consumed ++ [r]) n j ts := by
    intro ts
    induction ts with
    | nil => intro j; rfl
    | cons t ts ih =>
      intro j
      simp only [fillAux, writeRowAux, ih (j + 1)]
      congr 1
      show set_list_value r _ consumed.length j types loc = _
      unfold set_list_value
      have hmaplen : (consumed.map (fun x => decodeCell types loc x j)).length
          = consumed.length := List.length_map _ _
      rw [← hmaplen]
      rw [listSetAppend]
      rw [hmaplen]
      have hrep : n - consumed.length = (n - (consumed.length + 1)) + 1 := by omega
      rw [hrep, List.replicate_succ]
      simp
  exact aux types 0

theorem dfResize_fill (types : List PGTypes) (loc : Tm → Int)
    (consumed : List PGresult) (n n2 : Nat)
    (h1 : consumed.length ≤ n) (h2 : consumed.length ≤ n2) :
    dfResize types (fillDF types loc consumed n) n2 = fillDF types loc consumed n2 := by
  show dfResize types (fillAux types loc consumed n 0 types) n2
      = fillAux types loc consumed n2 0 types
  have aux : ∀ (ts : List PGTypes) (j : Nat),
      dfResize ts (fillAux types loc consumed n j ts) n2
        = fillAux types loc consumed n2 j ts := by
    intro ts
    induction ts with
    | nil => intro j; rfl
    | cons t ts ih =>
      intro j
      simp only [fillAux, dfResize, ih (j + 1)]
      congr 1
      show resizeCol t _ n2 = _
      unfold resizeCol
      have hmaplen : (consumed.map (fun x => decodeCell types loc x j)).length
          = consumed.length := List.length_map _ _
      rw [List.take_append_eq_append_take, List.take_of_length_le (by omega),
        List.take_replicate, hmaplen]
      rw [List.length_append, hmaplen, List.length_replicate]
      rw [List.append_assoc, ← List.replicate_add]
      have harith : min (n2 - consumed.length) (n - consumed.length)
          + (n2 - (consumed.length + (n - consumed.length))) = n2 - consumed.length := by
        omega
      rw [harith]
  exact aux types 0

theorem fill_eq_decoded (types : List PGTypes) (loc : Tm → Int) (consumed : List PGresult) :
    fillDF types loc consumed consumed.length = decodedDF types loc consumed := by
  show fillAux types loc consumed consumed.length 0 types = decodedAux types loc consumed 0 types
  have aux : ∀ (ts : List PGTypes) (j : Nat),
      fillAux types loc consumed consumed.length j ts = decodedAux types loc consumed j ts := by
    intro ts
    induction ts with
    | nil => intro j; rfl
    | cons t ts ih => intro j; simp [fillAux, decodedAux, ih (j + 1)]
  exact aux types 0

theorem pqRowCreate_mkStream (rows : List (List Cell)) (c : Int) :
    pqRowCreate (mkStream rows c) = .ok (headUnit rows c, tailUnits rows c) := by
  cases rows with
  | nil => simp [mkStream, pqRowCreate, headUnit, tailUnits, PGresult.status, drainResults]
  | cons r rs => simp [mkStream, pqRowCreate, headUnit, tailUnits, PGresult.status]

theorem le_finalCapNeg : ∀ (k n i : Nat), i ≤ n → 0 < n → i + k ≤ finalCapNeg n i k := by
  intro k
  induction k with
  | zero => intro n i h _; simpa [finalCapNeg] using h
  | succ k ih =>
    intro n i h hn
    show i + (k + 1) ≤ finalCapNeg (if n ≤ i then n * 2 else n) (i + 1) k
    by_cases hni : n ≤ i
    · have : i = n := le_antisymm h hni
      subst this
      rw [if_pos hni]
      have := ih (i * 2) (i + 1) (by omega) (by omega)
      omega
    · rw [if_neg hni]
      have := ih n (i + 1) (by omega) hn
      omega

theorem fetchLoop_step (types : List PGTypes) (loc : Tm → Int) (nMax : Int)
    (cur : PGresult) (queue : List PGresult) (n i nr : Nat) (out : DF)
    (hd : cur.hasData = true) (hnb : ¬(n ≤ i ∧ 0 ≤ nMax))
    (r2 : PGresult) (q2 : List PGresult)
    (hq : pqRowCreate queue = .ok (r2, q2)) :
    fetchLoop types loc nMax cur queue n i nr out
      = fetchLoop types loc nMax r2 q2 (if n ≤ i then n * 2 else n) (i + 1) (nr + 1)
          (writeRow types loc cur
            (if n ≤ i then dfResize types out (n * 2) else out) i) := by
  rw [fetchLoop.eq_def]
  simp only [hd, if_true, if_neg hnb]
  split
  · next e heq =>
    rw [hq] at heq
    cases heq
  · next rq heq =>
    rw [hq] at heq
    injection heq with h2
    cases h2
    by_cases hni : n ≤ i
    · simp only [if_pos hni]
    · simp only [if_neg hni]

theorem fetchLoop_exit (types : List PGTypes) (loc : Tm → Int) (nMax : Int)
    (cur : PGresult) (queue : List PGresult) (n i nr : Nat) (out : DF)
    (hd : cur.hasData = false) :
    fetchLoop types loc nMax cur queue n i nr out = .ok ⟨out, n, i, cur, queue, nr⟩ := by
  rw [fetchLoop.eq_def]
  simp [hd]

theorem fetchLoop_break (types : List PGTypes) (loc : Tm → Int) (nMax : Int)
    (cur : PGresult) (queue : List PGresult) (n i nr : Nat) (out : DF)
    (hd : cur.hasData = true) (hb : n ≤ i ∧ 0 ≤ nMax) :
    fetchLoop types loc nMax cur queue n i nr out = .ok ⟨out, n, i, cur, queue, nr⟩ := by
  rw [fetchLoop.eq_def]
  simp [hd, hb]

theorem fetchLoop_neg (types : List PGTypes) (loc : Tm → Int) (nMax : Int)
    (hneg : nMax < 0) (c : Int) :
    ∀ (rs : List (List Cell)) (consumed : List PGresult) (n nr : Nat),
      consumed.length ≤ n → 0 < n →
      fetchLoop types loc nMax (headUnit rs c) (tailUnits rs c) n consumed.length nr
          (fillDF types loc consumed n)
        = .ok ⟨fillDF types loc (consumed ++ rs.map PGresult.singleTuple)
                 (finalCapNeg n consumed.length rs.length),
               finalCapNeg n consumed.length rs.length,
               consumed.length + rs.length, .tuplesOk c, [], nr + rs.length⟩ := by
  intro rs
  induction rs with
  | nil =>
    intro consumed n nr h hn
    rw [fetchLoop_exit types loc nMax (headUnit [] c) (tailUnits [] c) n consumed.length nr
      (fillDF types loc consumed n) rfl]
    simp [headUnit, tailUnits, finalCapNeg]
  | cons r rs ih =>
    intro consumed n nr h hn
    have hq : pqRowCreate (tailUnits (r :: rs) c) = .ok (headUnit rs c, tailUnits rs c) := by
      show pqRowCreate (mkStream rs c) = _
      exact pqRowCreate_mkStream rs c
    rw [fetchLoop_step types loc nMax (headUnit (r :: rs) c) (tailUnits (r :: rs) c)
      n consumed.length nr (fillDF types loc consumed n) rfl (by omega) _ _ hq]
    rcases Nat.lt_or_ge consumed.length n with hlt | hge
    · have hni : ¬(n ≤ consumed.length) := by omega
      rw [if_neg hni, if_neg hni]
      have hwr : writeRow types loc (headUnit (r :: rs) c) (fillDF types loc consumed n)
          consumed.length = fillDF types loc (consumed ++ [PGresult.singleTuple r]) n :=
        writeRow_fill types loc (.singleTuple r) consumed n hlt
      rw [hwr]
      have hlen : consumed.length + 1 = (consumed ++ [PGresult.singleTuple r]).length := by
        simp
      rw [hlen, ih (consumed ++ [PGresult.singleTuple r]) n (nr + 1) (by simpa using hlt) hn]
      have hcap : finalCapNeg n consumed.length (rs.length + 1)
          = finalCapNeg n (consumed.length + 1) rs.length := by
        show finalCapNeg (if n ≤ consumed.length then n * 2 else n) (consumed.length + 1)
            rs.length = _
        rw [if_neg hni]
      simp [hcap, List.append_assoc]
      omega
    · have heq : consumed.length = n := le_antisymm h hge
      rw [if_pos hge, if_pos hge]
      rw [dfResize_fill types loc consumed n (n * 2) h (by omega)]
      have hwr : writeRow types loc (headUnit (r :: rs) c) (fillDF types loc consumed (n * 2))
          consumed.length
          = fillDF types loc (consumed ++ [PGresult.singleTuple r]) (n * 2) :=
        writeRow_fill types loc (.singleTuple r) consumed (n * 2) (by omega)
      rw [hwr]
      have hlen : consumed.length + 1 = (consumed ++ [PGresult.singleTuple r]).length := by
        simp
      rw [hlen, ih (consumed ++ [PGresult.singleTuple r]) (n * 2) (nr + 1)
        (by simp; omega) (by omega)]
      have hcap : finalCapNeg n consumed.length (rs.length + 1)
          = finalCapNeg (n * 2) (consumed.length + 1) rs.length := by
        show finalCapNeg (if n ≤ consumed.length then n * 2 else n) (consumed.length + 1)
            rs.length = _
        rw [if_pos hge]
      simp [hcap, List.append_assoc]
      omega

theorem fetchLoop_nonneg (types : List PGTypes) (loc : Tm → Int) (nMax : Int)
    (hpos : 0 ≤ nMax) (c : Int) :
    ∀ (rs : List (List Cell)) (consumed : List PGresult) (n nr : Nat),
      consumed.length ≤ n →
      fetchLoop types loc nMax (headUnit rs c) (tailUnits rs c) n consumed.length nr
          (fillDF types loc consumed n)
        = .ok ⟨fillDF types loc
                 (consumed ++ (rs.take (n - consumed.length)).map PGresult.singleTuple) n,
               n, consumed.length + min rs.length (n - consumed.length),
               headUnit (rs.drop (n - consumed.length)) c,
               tailUnits (rs.drop (n - consumed.length)) c,
               nr + min rs.length (n - consumed.length)⟩ := by
  intro rs
  induction rs with
  | nil =>
    intro consumed n nr h
    rw [fetchLoop_exit types loc nMax (headUnit [] c) (tailUnits [] c) n consumed.length nr
      (fillDF types loc consumed n) rfl]
    simp [headUnit, tailUnits]
  | cons r rs ih =>
    intro consumed n nr h
    rcases Nat.lt_or_ge consumed.length n with hlt | hge
    · have hq : pqRowCreate (tailUnits (r :: rs) c) = .ok (headUnit rs c, tailUnits rs c) := by
        show pqRowCreate (mkStream rs c) = _
        exact pqRowCreate_mkStream rs c
      have hni : ¬(n ≤ consumed.length) := by omega
      rw [fetchLoop_step types loc nMax (headUnit (r :: rs) c) (tailUnits (r :: rs) c)
        n consumed.length nr (fillDF types loc consumed n) rfl (by omega) _ _ hq]
      rw [if_neg hni, if_neg hni]
      have hwr : writeRow types loc (headUnit (r :: rs) c) (fillDF types loc consumed n)
          consumed.length = fillDF types loc (consumed ++ [PGresult.singleTuple r]) n :=
        writeRow_fill types loc (.singleTuple r) consumed n hlt
      rw [hwr]
      have hlen : consumed.length + 1 = (consumed ++ [PGresult.singleTuple r]).length := by
        simp
      rw [hlen, ih (consumed ++ [PGresult.singleTuple r]) n (nr + 1) (by simpa using hlt)]
      have hlen2 : (consumed ++ [PGresult.singleTuple r]).length = consumed.length + 1 := by
        simp
      rw [hlen2]
      have hk : n - consumed.length = (n - (consumed.length + 1)) + 1 := by omega
      rw [hk, List.take_succ_cons, List.drop_succ_cons]
      simp [List.append_assoc, Nat.succ_min_succ]
      omega
    · have hk : n - consumed.length = 0 := by omega
      rw [fetchLoop_break types loc nMax (headUnit (r :: rs) c) (tailUnits (r :: rs) c)
        n consumed.length nr (fillDF types loc consumed n) rfl ⟨hge, hpos⟩]
      simp [hk]

/-- Claim C4: for every result stream (here: any list of rows followed by the
end-of-rows unit), `fetch(-1)` returns all rows of the stream, decoded column
by column, with the returned buffers trimmed to exactly the number of rows
written; the stream is left on its terminator with the connection queue
drained.  The proof goes through the loop invariant of `fetchLoop_neg`, whose
capacity evolution `finalCapNeg` is precisely "start at 100 and double each
time the write index reaches the capacity". -/
theorem claim_C4 (types : List PGTypes) (loc : Tm → Int) (rows : List (List Cell))
    (c : Int) (np n0 : Nat) :
    fetch loc ⟨np, types, true, true, none, mkStream rows c, n0⟩ (-1)
      = .ok (decodedDF types loc (rows.map PGresult.singleTuple),
             ⟨np, types, true, true, some (.tuplesOk c), [], n0 + 1 + rows.length⟩) := by
  have hrow : fetch_row_if_needed ⟨np, types, true, true, none, mkStream rows c, n0⟩
      = .ok (headUnit rows c,
             ⟨np, types, true, true, some (headUnit rows c), tailUnits rows c, n0 + 1⟩) := by
    show fetch_row _ = _
    unfold fetch_row
    rw [pqRowCreate_mkStream]
  have hloop := fetchLoop_neg types loc (-1) (by norm_num) c rows [] 100 (n0 + 1)
    (by simp) (by norm_num)
  simp only [List.length_nil, List.nil_append, Nat.zero_add] at hloop
  rw [← dfCreate_eq_fill types loc 100] at hloop
  have hle : rows.length ≤ finalCapNeg 100 0 rows.length := by
    have := le_finalCapNeg rows.length 100 0 (by norm_num) (by norm_num)
    omega
  have hml : (rows.map PGresult.singleTuple).length = rows.length := List.length_map _ _
  unfold fetch
  simp only [hrow]
  norm_num
  rw [hloop]
  dsimp only
  rcases Nat.lt_or_ge rows.length (finalCapNeg 100 0 rows.length) with hlt | hge
  · rw [if_pos hlt]
    rw [dfResize_fill types loc (rows.map PGresult.singleTuple) (finalCapNeg 100 0 rows.length)
      rows.length (by rw [hml]; omega) (by rw [hml])]
    have hfd : fillDF types loc (rows.map PGresult.singleTuple) rows.length
        = decodedDF types loc (rows.map PGresult.singleTuple) := by
      rw [← hml]
      exact fill_eq_decoded types loc _
    rw [hfd]
  · have heq : rows.length = finalCapNeg 100 0 rows.length := by omega
    rw [if_neg (by omega)]
    have hfd : fillDF types loc (rows.map PGresult.singleTuple) (finalCapNeg 100 0 rows.length)
        = decodedDF types loc (rows.map PGresult.singleTuple) := by
      rw [← heq, ← hml]
      exact fill_eq_decoded types loc _
    rw [hfd]

theorem decodedDF_nil (types : List PGTypes) (loc : Tm → Int) :
    decodedDF types loc [] = types.map (fun _ => []) := by
  show decodedAux types loc [] 0 types = _
  have aux : ∀ (ts : List PGTypes) (j : Nat),
      decodedAux types loc [] j ts = ts.map (fun _ => []) := by
    intro ts
    induction ts with
    | nil => intro j; rfl
    | cons t ts ih => intro j; simp [decodedAux, ih (j + 1)]
  exact aux types 0

theorem dfTrimZero (types : List PGTypes) (nn : Nat) :
    (if 0 < nn then dfResize types (dfCreate types nn) 0 else dfCreate types nn)
      = types.map (fun _ => []) := by
  rcases Nat.eq_zero_or_pos nn with h0 | hpos
  · subst h0
    simp [dfCreate]
  · rw [if_pos hpos]
    rw [dfCreate_eq_fill types (fun _ => 0) nn]
    rw [dfResize_fill types (fun _ => 0) [] nn 0 (by simp) (by simp)]
    have h := fill_eq_decoded types (fun _ => 0) []
    simp only [List.length_nil] at h
    rw [h, decodedDF_nil]

theorem fetch_row_if_needed_pNextRow {st : ResultSt} {r : PGresult} {st2 : ResultSt}
    (h : fetch_row_if_needed st = .ok (r, st2)) : st2.pNextRow = some r := by
  unfold fetch_row_if_needed at h
  split at h
  · next r0 heq =>
    injection h with h2
    injection h2 with ha hb
    subst ha
    subst hb
    exact heq
  · next heq =>
    unfold fetch_row at h
    split at h
    · exact absurd h (by simp)
    · injection h with h2
      injection h2 with ha hb
      subst ha
      subst hb
      rfl

/-- Claim C5: for every `n ≥ 0`, `fetch(n)` returns at most `n` rows (exactly
the first `min (#rows) n` of the stream), stops earlier when the stream
exhausts, keeps the buffer capacity at `n` throughout (the loop lemma
`fetchLoop_nonneg` never grows it), trims the returned buffers to the exact
number of rows written — and once `is_complete` reports `true`, any further
`fetch` returns 0 rows and leaves the state unchanged. -/
theorem claim_C5 :
    (∀ (types : List PGTypes) (loc : Tm → Int) (rows : List (List Cell)) (c : Int)
        (np n0 n : Nat),
      fetch loc ⟨np, types, true, true, none, mkStream rows c, n0⟩ (n : Int)
        = .ok (decodedDF types loc ((rows.take n).map PGresult.singleTuple),
               ⟨np, types, true, true, some (headUnit (rows.drop n) c),
                tailUnits (rows.drop n) c, n0 + 1 + min rows.length n⟩))
    ∧ (∀ (loc : Tm → Int) (st st2 : ResultSt) (nMax : Int),
      is_complete st = .ok (true, st2) → st2.bound = true → st2.isActive = true →
      fetch loc st2 nMax = .ok (st2.types.map (fun _ => []), st2)) := by
  constructor
  · intro types loc rows c np n0 n
    have hrow : fetch_row_if_needed ⟨np, types, true, true, none, mkStream rows c, n0⟩
        = .ok (headUnit rows c,
               ⟨np, types, true, true, some (headUnit rows c), tailUnits rows c, n0 + 1⟩) := by
      show fetch_row _ = _
      unfold fetch_row
      rw [pqRowCreate_mkStream]
    have hloop := fetchLoop_nonneg types loc (n : Int) (by omega) c rows [] n (n0 + 1)
      (by simp)
    simp only [List.length_nil, List.nil_append, Nat.zero_add, Nat.sub_zero] at hloop
    rw [← dfCreate_eq_fill types loc n] at hloop
    have hml : ((rows.take n).map PGresult.singleTuple).length = min rows.length n := by
      simp [List.length_take, Nat.min_comm]
    unfold fetch
    simp only [hrow]
    have hnn : ¬((n : Int) < 0) := by omega
    rw [if_neg (by simp), if_neg (by simp)]
    simp only [if_neg hnn, Int.toNat_natCast]
    rw [hloop]
    dsimp only
    have hwle : min rows.length n ≤ n := Nat.min_le_right _ _
    have hfd := fill_eq_decoded types loc ((rows.take n).map PGresult.singleTuple)
    rw [hml] at hfd
    rcases Nat.lt_or_ge (min rows.length n) n with hlt | hge
    · rw [if_pos hlt]
      rw [dfResize_fill types loc ((rows.take n).map PGresult.singleTuple) n
        (min rows.length n) (by rw [hml]; omega) (by rw [hml])]
      rw [hfd]
    · have heqn : min rows.length n = n := by omega
      rw [if_neg (by omega)]
      rw [heqn] at hfd
      rw [hfd]
  · intro loc st st2 nMax hic hb ha
    obtain ⟨r, hfr2, hdata⟩ :
        ∃ r, fetch_row_if_needed st = .ok (r, st2) ∧ r.hasData = false := by
      unfold is_complete at hic
      split at hic
      · exact absurd hic (by simp)
      · next rs heq =>
        injection hic with h2
        injection h2 with h3 h4
        refine ⟨rs.1, ?_, ?_⟩
        · rw [heq, ← h4]
        · simpa using h3
    have hp : st2.pNextRow = some r := fetch_row_if_needed_pNextRow hfr2
    have hfr3 : fetch_row_if_needed st2 = .ok (r, st2) := by
      unfold fetch_row_if_needed
      rw [hp]
    unfold fetch
    rw [if_neg (by rw [hb]; simp), if_neg (by rw [ha]; simp)]
    simp only [hfr3]
    rw [fetchLoop_exit st2.types loc nMax r st2.queue
      (if nMax < 0 then 100 else nMax.toNat) 0 st2.nrows
      (dfCreate st2.types (if nMax < 0 then 100 else nMax.toNat)) hdata]
    dsimp only
    rw [dfTrimZero st2.types (if nMax < 0 then 100 else nMax.toNat)]
    obtain ⟨f1, f2, f3, f4, f5, f6, f7⟩ := st2
    simp only at hp
    rw [hp]

/-- Claim C5 witness: on a concrete exhausted stream (lookahead already at the
end-of-rows unit) a further `fetch 7` returns zero rows and the state is
unchanged. -/
theorem claim_C5_witness :
    fetch (fun _ => 0) ⟨0, [PGTypes.PGInt], true, true, some (.tuplesOk 3), [], 5⟩ 7
      = .ok ([[]], ⟨0, [PGTypes.PGInt], true, true, some (.tuplesOk 3), [], 5⟩) := by
  have h := claim_C5.2 (fun _ => 0)
    ⟨0, [PGTypes.PGInt], true, true, some (.tuplesOk 3), [], 5⟩
    ⟨0, [PGTypes.PGInt], true, true, some (.tuplesOk 3), [], 5⟩ 7 rfl rfl rfl
  simpa using h

/-- Claim C2: when the first response unit the `PqRow` constructor pulls is the
command-complete end-of-rows unit (`PGRES_TUPLES_OK`, carrying the
affected-row count), the constructor drains every further pending unit down
to the end-of-responses sentinel, leaving the connection queue empty and
hence reusable for the next query. -/
theorem claim_C2 (rest : List PGresult) (c : Int) :
    pqRowCreate (.tuplesOk c :: rest) = .ok (.tuplesOk c, []) := by
  unfold pqRowCreate
  simp [PGresult.status, drainResults_eq_nil]

/-- Claim C6: `fetch` on an unbound ResultSet fails with BindingError, and
`fetch` on a ResultSet that is no longer the connection's current result
fails with StaleResultError — for every lookahead and every pending queue,
which is the model-level statement that the failure happens before any I/O;
the error return carries no state, so the ResultSet is unchanged. -/
theorem claim_C6 (loc : Tm → Int) (np : Nat) (types : List PGTypes) (a : Bool)
    (pnr : Option PGresult) (q : List PGresult) (n0 : Nat) (nMax : Int) :
    fetch loc ⟨np, types, false, a, pnr, q, n0⟩ nMax
      = .error (.bindingError "Query needs to be bound before fetching")
    ∧ fetch loc ⟨np, types, true, false, pnr, q, n0⟩ nMax
      = .error (.staleResultError "Inactive result set") := by
  constructor
  · unfold fetch
    rw [if_pos rfl]
  · unfold fetch
    rw [if_neg (by simp), if_pos rfl]

/-- Claim C1, amended: a NULL column decodes to the reserved NA sentinel of
its decoded type for every type except RawBytes, without error; for RawBytes
(`get_raw`, which performs no null check) a NULL cell decodes to the empty
byte vector — the same value as a non-null empty bytea, not a distinct
absent marker. -/
theorem claim_C1 (loc : Tm → Int) :
    decodeCell [.PGInt] loc (.singleTuple [none]) 0 = .naInt
    ∧ decodeCell [.PGReal] loc (.singleTuple [none]) 0 = .naReal
    ∧ decodeCell [.PGString] loc (.singleTuple [none]) 0 = .naString
    ∧ decodeCell [.PGLogical] loc (.singleTuple [none]) 0 = .naLogical
    ∧ decodeCell [.PGDate] loc (.singleTuple [none]) 0 = .naReal
    ∧ decodeCell [.PGDatetime] loc (.singleTuple [none]) 0 = .naReal
    ∧ decodeCell [.PGDatetimeTZ] loc (.singleTuple [none]) 0 = .naReal
    ∧ decodeCell [.PGTime] loc (.singleTuple [none]) 0 = .naReal
    ∧ decodeCell [.PGVector] loc (.singleTuple [none]) 0 = .raw [] :=
  ⟨rfl, rfl, rfl, rfl, rfl, rfl, rfl, rfl, rfl⟩

/-- Claim C1 counterexample: for the RawBytes decoded type the claim fails —
decoding a NULL cell yields exactly the same value as decoding a non-null
empty value, and that value is not one of the reserved missing sentinels, so
a NULL RawBytes column does not decode to a canonical missing sentinel. -/
theorem claim_C1_counterexample :
    decodeCell [.PGVector] (fun _ => 0) (.singleTuple [none]) 0
        = decodeCell [.PGVector] (fun _ => 0) (.singleTuple [some ""]) 0
    ∧ isMissingSentinel (decodeCell [.PGVector] (fun _ => 0) (.singleTuple [none]) 0)
        = false :=
  ⟨rfl, rfl⟩

theorem bindRowsLoop_no_arity (params : List (List String))
    (execResp : List String → Option String) :
    ∀ (k i : Nat) (sent : List (List String)) (msg : String),
      bindRowsLoop params execResp i k sent ≠ .error (.arityError msg) := by
  intro k
  induction k with
  | zero => intro i sent msg; simp [bindRowsLoop]
  | succ k ih =>
    intro i sent msg hcontra
    simp only [bindRowsLoop] at hcontra
    split at hcontra
    · exact absurd hcontra (by simp)
    · exact ih (i + 1) _ msg hcontra

/-- Claim C3, amended: `bind_rows` raises ArityError exactly when the number
of parameter columns differs from the statement's declared parameter count;
the lengths of the columns are never compared with one another (the row
count is simply the first column's length), so unequal column lengths alone
never produce an ArityError. -/
theorem claim_C3 (st : ResultSt) (params : List (List String))
    (execResp : List String → Option String) :
    (params.length ≠ st.nparams →
      bind_rows st params execResp
        = .error (.arityError ("Query requires " ++ toString st.nparams ++ " params; "
            ++ toString params.length ++ " supplied.")))
    ∧ (∀ msg, bind_rows st params execResp = .error (.arityError msg) →
        params.length ≠ st.nparams) := by
  constructor
  · intro h
    unfold bind_rows
    rw [if_pos h]
  · intro msg h hcnt
    unfold bind_rows at h
    rw [if_neg (by omega)] at h
    dsimp only at h
    split at h
    · next e heq =>
      injection h with h2
      subst h2
      exact bindRowsLoop_no_arity params execResp _ 0 [] msg heq
    · exact absurd h (by simp)

/-- Claim C3 witness: a concrete arity mismatch (3 declared parameters, one
column supplied) produces exactly the ArityError of the source. -/
theorem claim_C3_witness :
    bind_rows ⟨3, [], false, true, none, [], 0⟩ [["a"]] (fun _ => none)
      = .error (.arityError "Query requires 3 params; 1 supplied.") := by
  have h := (claim_C3 ⟨3, [], false, true, none, [], 0⟩ [["a"]] (fun _ => none)).1
    (by decide)
  simpa using h

/-- Claim C3 counterexample: two parameter columns of different lengths (1 and
2) with a matching column count do not raise ArityError — the call succeeds
and one row (built from index 0 of each column) is executed server-side, so
the required failure "before any row is sent" does not happen. -/
theorem claim_C3_counterexample :
    bind_rows ⟨2, [], false, true, none, [], 0⟩ [["a"], ["x", "y"]] (fun _ => none)
      = .ok (⟨2, [], false, true, none, [], 0⟩, [["a", "x"]]) := by
  rfl

/-- The calendar fields of a timestamp wire value
`YYYY-MM-DD HH:MM:SS[.ffffff][+TZ]` read at their fixed positions (§4.4),
assembled as the `struct tm` the decoder hands to the epoch conversion: the
whole seconds are truncated into `tm_sec`. -/
def tsTm (s : String) : Tm :=
  let v := s.toList
  { tm_year := ((charDigit (v.getD 0 ' ') * 10 + charDigit (v.getD 1 ' ')) * 10
      + charDigit (v.getD 2 ' ')) * 10 + charDigit (v.getD 3 ' ') - 1900,
    tm_mon := charDigit (v.getD 5 ' ') * 10 + charDigit (v.getD 6 ' ') - 1,
    tm_mday := charDigit (v.getD 8 ' ') * 10 + charDigit (v.getD 9 ' '),
    tm_hour := charDigit (v.getD 11 ' ') * 10 + charDigit (v.getD 12 ' '),
    tm_min := charDigit (v.getD 14 ' ') * 10 + charDigit (v.getD 15 ' '),
    tm_sec := cTrunc (strtodQ (v.drop 17)) }

/-- The seconds field of a timestamp wire value, fraction included. -/
def tsSeconds (s : String) : ℚ := strtodQ (s.toList.drop 17)

/-- The fractional-second part of a timestamp wire value: what remains of the
seconds after the whole part was truncated into `tm_sec`. -/
def tsFrac (s : String) : ℚ := tsSeconds s - (cTrunc (tsSeconds s) : ℚ)

/-- Claim C7: a column declared timestamp-with-zone (`PGDatetimeTZ`) decodes
to epoch seconds obtained by interpreting the parsed calendar fields as UTC
(`timegm`), a column declared timestamp-without-zone (`PGDatetime`) decodes
to epoch seconds obtained through the process-local calendar rule (`mktime`,
here the arbitrary function `loc`), and in both cases the fractional-second
part of the wire value is added back onto the converted whole seconds. -/
theorem claim_C7 (types : List PGTypes) (loc : Tm → Int) (r : PGresult) (j : Nat)
    (s : String) (hcell : cellOf r j = some s) :
    (types.getD j .PGString = .PGDatetimeTZ →
      decodeCell types loc r j = .real ((timegm (tsTm s) : ℚ) + tsFrac s))
    ∧ (types.getD j .PGString = .PGDatetime →
      decodeCell types loc r j = .real ((loc (tsTm s) : ℚ) + tsFrac s)) := by
  have hnull : is_null r j = false := by simp [is_null, hcell]
  have hval : PQgetvalue r j = s := by
    cases r with
    | singleTuple row =>
      simp only [cellOf] at hcell
      show (row.getD j none).getD "" = s
      rw [hcell]
      rfl
    | commandOk k => exact absurd hcell (by simp [cellOf])
    | tuplesOk k => exact absurd hcell (by simp [cellOf])
    | fatalError m => exact absurd hcell (by simp [cellOf])
  refine ⟨fun ht => ?_, fun ht => ?_⟩
  · unfold decodeCell
    rw [ht]
    unfold get_datetime
    rw [hnull]
    simp only [Bool.false_eq_true, if_false]
    rw [hval]
    rfl
  · unfold decodeCell
    rw [ht]
    unfold get_datetime
    rw [hnull]
    simp only [Bool.false_eq_true, if_false]
    rw [hval]
    rfl

/-- Claim C7 witness: the aware timestamp `2024-03-15 10:30:00.5` decodes to
the UTC epoch value 1710498600.5 (2024-03-15 is epoch day 19797), the
half-second fraction preserved. -/
theorem claim_C7_witness :
    decodeCell [.PGDatetimeTZ] (fun _ => 0)
        (.singleTuple [some "2024-03-15 10:30:00.5"]) 0
      = .real (1710498600 + 1 / 2) := by
  have h := (claim_C7 [.PGDatetimeTZ] (fun _ => 0)
    (.singleTuple [some "2024-03-15 10:30:00.5"]) 0 "2024-03-15 10:30:00.5" rfl).1 rfl
  rw [h]
  have hl : "2024-03-15 10:30:00.5".toList
      = ['2', '0', '2', '4', '-', '0', '3', '-', '1', '5', ' ',
         '1', '0', ':', '3', '0', ':', '0', '0', '.', '5'] := by decide
  have hsecd : strtodQ ['0', '0', '.', '5'] = mkRat 1 2 := by
    show ((0 : Nat) : ℚ) + ((5 : Nat) : ℚ) / ((10 : ℚ) ^ (1 : Nat)) = mkRat 1 2
    rw [Rat.mkRat_eq_div]
    norm_num
  have htm : tsTm "2024-03-15 10:30:00.5"
      = ⟨124, 2, 15, 10, 30, cTrunc (strtodQ ['0', '0', '.', '5'])⟩ := by
    unfold tsTm
    rw [hl]
    simp only [Tm.mk.injEq]
    refine ⟨by decide, by decide, by decide, by decide, by decide, rfl⟩
  have hct : cTrunc (mkRat 1 2) = 0 := by decide
  have hfr : tsFrac "2024-03-15 10:30:00.5" = mkRat 1 2 - ((0 : Int) : ℚ) := by
    unfold tsFrac tsSeconds
    rw [hl]
    show strtodQ (List.drop 17 _) - _ = _
    rw [show List.drop 17 ['2', '0', '2', '4', '-', '0', '3', '-', '1', '5', ' ',
         '1', '0', ':', '3', '0', ':', '0', '0', '.', '5'] = ['0', '0', '.', '5'] from rfl]
    rw [hsecd, hct]
  rw [htm, hsecd, hct, hfr]
  have htg : timegm ⟨124, 2, 15, 10, 30, 0⟩ = 1710498600 := by decide
  rw [htg]
  congr 1
  rw [Rat.mkRat_eq_div]
  norm_num

theorem columnType_snd (name : String) (oid : Nat) :
    (columnType name oid).2
      = if oid ∈ knownOids then none else some (unknownFieldMsg oid name) := by
  unfold columnType
  split
  all_goals simp_all [knownOids]

/-- Claim C8: the type mapper sends every column whose server type identifier
is outside the mapping table to String with exactly one warning naming that
column; warnings are a function of the described column metadata alone (so
they arise once per column at describe time, independent of any rows), and a
ResultSet constructed over columns with unknown identifiers still constructs
successfully — the query never fails because of an unknown type. -/
theorem claim_C8 :
    (∀ cols : List (String × Nat),
      get_column_types cols
        = (cols.map (fun cn => (columnType cn.1 cn.2).1),
           (cols.filter (fun cn => decide (cn.2 ∉ knownOids))).map
             (fun cn => unknownFieldMsg cn.2 cn.1)))
    ∧ (∀ (name : String) (oid : Nat), oid ∉ knownOids →
        columnType name oid = (.PGString, some (unknownFieldMsg oid name)))
    ∧ (∀ (rid np : Nat) (cols : List (String × Nat)) (cr : Option Nat)
        (stream : List PGresult) (sql : String),
        ((pqResultNew rid ⟨true, cr, .ok (), .ok (np, cols), true, true, stream⟩ sql).1).isOk
          = true) := by
  refine ⟨?_, ?_, ?_⟩
  · intro cols
    induction cols with
    | nil => rfl
    | cons cn rest ih =>
      have hsnd := columnType_snd cn.1 cn.2
      by_cases hmem : cn.2 ∈ knownOids
      · simp [get_column_types, ih, hsnd, hmem, List.filter_cons]
      · simp [get_column_types, ih, hsnd, hmem, List.filter_cons]
  · intro name oid h
    unfold columnType
    split
    all_goals simp_all [knownOids]
  · intro rid np cols cr stream sql
    unfold pqResultNew
    rw [if_neg (by simp)]
    dsimp only
    by_cases h : np = 0
    · rw [if_pos h]
      rw [if_neg (by simp), if_neg (by simp)]
      rfl
    · rw [if_neg h]
      rfl

/-- Claim C8 witness: the geometric type identifier 603 is outside the table;
its column decodes as String with the single warning naming the column. -/
theorem claim_C8_witness :
    columnType "geomcol" 603 = (.PGString, some (unknownFieldMsg 603 "geomcol")) :=
  claim_C8.2.1 "geomcol" 603 (by decide)

/-- Claim C9: whenever construction fails after the ResultSet registered
itself (the connection was usable, so registration happened; the failure is
a prepare, describe or auto-bind failure), the constructor has set the
connection's current-result slot back to NULL before the error propagates. -/
theorem claim_C9 (rid : Nat) (conn : PqConnection) (sql : String) (e : RError)
    (hok : conn.connOk = true)
    (herr : (pqResultNew rid conn sql).1 = .error e) :
    (pqResultNew rid conn sql).2.currentResult = none := by
  obtain ⟨ok, cr, prep, desc, sOk, srOk, stream⟩ := conn
  simp only at hok
  subst hok
  unfold pqResultNew at herr ⊢
  rw [if_neg (by simp)] at herr ⊢
  dsimp only at herr ⊢
  cases prep with
  | error m => rfl
  | ok u =>
    dsimp only at herr ⊢
    cases desc with
    | error m => rfl
    | ok spec =>
      dsimp only at herr ⊢
      by_cases h0 : spec.1 = 0
      · rw [if_pos h0] at herr ⊢
        cases sOk
        · rfl
        · rw [if_neg (by simp)] at herr ⊢
          cases srOk
          · rfl
          · rw [if_neg (by simp)] at herr ⊢
            exact absurd herr (by simp)
      · rw [if_neg h0] at herr ⊢
        exact absurd herr (by simp)

/-- Claim C9 witness: a prepare failure after registration leaves the
current-result slot cleared. -/
theorem claim_C9_witness :
    (pqResultNew 1 ⟨true, none, .error "syntax error at or near \"SELEC\"",
        .ok (0, []), true, true, []⟩ "SELEC 1").2.currentResult = none :=
  claim_C9 1 ⟨true, none, .error "syntax error at or near \"SELEC\"",
    .ok (0, []), true, true, []⟩ "SELEC 1"
    (.queryError "syntax error at or near \"SELEC\"") rfl rfl

/-- Claim C10: `bind_rows` never sets the `bound_` flag: a ResultSet
constructed over a statement with a positive parameter count (so no
auto-bind) on which only `bind_rows` was called — successfully — still fails
`fetch` with BindingError. -/
theorem claim_C10 (rid : Nat) (conn : PqConnection) (sql : String)
    (np : Nat) (cols : List (String × Nat)) (st st2 : ResultSt) (warns : List String)
    (params : List (List String)) (execResp : List String → Option String)
    (sent : List (List String)) (loc : Tm → Int) (nMax : Int)
    (hdesc : conn.describeResp = .ok (np, cols)) (hnp : 0 < np)
    (hctor : (pqResultNew rid conn sql).1 = .ok (st, warns))
    (hbind : bind_rows st params execResp = .ok (st2, sent)) :
    fetch loc st2 nMax = .error (.bindingError "Query needs to be bound before fetching") := by
  obtain ⟨ok, cr, prep, desc, sOk, srOk, stream⟩ := conn
  simp only at hdesc
  subst hdesc
  cases ok
  · exact absurd hctor (by simp [pqResultNew])
  · unfold pqResultNew at hctor
    rw [if_neg (by simp)] at hctor
    dsimp only at hctor
    cases prep with
    | error m => exact absurd hctor (by simp)
    | ok u =>
      rw [if_neg (by omega)] at hctor
      injection hctor with h2
      injection h2 with hst hw
      have hstb : st.bound = false := by rw [← hst]
      have hst2 : st2 = st := by
        unfold bind_rows at hbind
        split at hbind
        · exact absurd hbind (by simp)
        · dsimp only at hbind
          split at hbind
          · exact absurd hbind (by simp)
          · injection hbind with h3
            injection h3 with ha hb
            exact ha.symm
      rw [hst2]
      unfold fetch
      rw [if_pos hstb]

/-- Claim C10 witness: one declared parameter, a successful one-row batch
bind, and the following fetch still fails with BindingError. -/
theorem claim_C10_witness :
    fetch (fun _ => 0) ⟨1, [.PGInt], false, true, none, [], 0⟩ (-1)
      = .error (.bindingError "Query needs to be bound before fetching") :=
  claim_C10 1 ⟨true, none, .ok (), .ok (1, [("a", 23)]), true, true, []⟩ "INSERT" 1
    [("a", 23)] ⟨1, [.PGInt], false, true, none, [], 0⟩
    ⟨1, [.PGInt], false, true, none, [], 0⟩ [] [["x"]] (fun _ => none) [["x"]]
    (fun _ => 0) (-1) rfl (by decide) rfl rfl

example : atoi "42" = 42 := by decide

example : atoi "-7" = -7 := by decide

example : daysFromCivil 1970 1 1 = 0 := by decide

example : daysFromCivil 2024 3 15 = 19797 := by decide

example : timegm ⟨70, 0, 1, 0, 0, 0⟩ = 0 := by decide

example : timegm ⟨124, 2, 15, 10, 30, 0⟩ = 1710498600 := by decide

example : columnType "n" 23 = (.PGInt, none) := rfl

example : columnType "b" 17 = (.PGVector, none) := rfl

example : get_logical (.singleTuple [some "t"]) 0 = .logical true := by decide

example : get_logical (.singleTuple [some "f"]) 0 = .logical false := by decide

example : get_int (.singleTuple [some "13", none]) 1 = .naInt := rfl

example : pqRowCreate [] = .error (.protocolError "No active query") := rfl

example : pqRowCreate [.fatalError "boom", .tuplesOk 0]
    = .error (.queryError "boom") := rfl
